import Mathlib

/-!
Verification of the contact-to-vCard encoding and freeform text parsing of the
qr-code-generator repository.  The repository contains three near-duplicate
variants of the application:

* variant 1: first revision in `src/App.tsx` (Contact with department/mobile/email,
  `buildVCard` without escaping, `addManual`),
* variant 2: second revision in `src/App.tsx` (`escapeVCardText`, `buildVCard`
  with NOTE line, `parseTextInput`, spreadsheet row mapping in `handleFile`),
* variant 3: the standalone `buildVCard` of `src/unnamed/part_000` (`escapeV`,
  regex extraction of phone and email from `addressAndOthers`).

JavaScript strings are embedded as `List Char`; the JS string primitives used by
the source (`trim`, `split('\n\n')`, `split('\n')`, `join('\n')`,
`replace(/c/g, r)` with a single-character pattern, `Array.prototype.filter`)
are embedded below with their JS semantics.
-/

/-- JS `String.prototype.trim` whitespace class (WhiteSpace ∪ LineTerminator):
tab, LF, VT, FF, CR, space, NBSP, Ogham space, the U+2000..U+200A spaces,
LS, PS, NNBSP, MMSP, ideographic space and the BOM. -/
def isWs (c : Char) : Bool :=
  c == ' ' || c == '\t' || c == '\n' || c == '\r' ||
  c.val == 0xB || c.val == 0xC || c.val == 0xA0 || c.val == 0x1680 ||
  (0x2000 ≤ c.val && c.val ≤ 0x200A) || c.val == 0x2028 || c.val == 0x2029 ||
  c.val == 0x202F || c.val == 0x205F || c.val == 0x3000 || c.val == 0xFEFF

/-- Leading-whitespace removal (left half of JS `trim`). -/
def trimL (l : List Char) : List Char := l.dropWhile isWs

/-- Trailing-whitespace removal (right half of JS `trim`). -/
def trimR (l : List Char) : List Char := (l.reverse.dropWhile isWs).reverse

/-- JS `String.prototype.trim`. -/
def jsTrim (l : List Char) : List Char := trimR (trimL l)

/-- JS `text.split('\n\n')`: split on each non-overlapping, leftmost occurrence
of two consecutive newline characters.  `''.split('\n\n') = ['']`. -/
def splitNN : List Char → List (List Char)
  | [] => [[]]
  | [c] => [[c]]
  | c :: d :: rest =>
    if c = '\n' ∧ d = '\n' then [] :: splitNN rest
    else (c :: (splitNN (d :: rest)).headD []) :: (splitNN (d :: rest)).tail

/-- JS `text.split('\n')`. `''.split('\n') = ['']`. -/
def splitLines : List Char → List (List Char)
  | [] => [[]]
  | c :: rest =>
    if c = '\n' then [] :: splitLines rest
    else (c :: (splitLines rest).headD []) :: (splitLines rest).tail

/-- JS `array.join('\n')` on an array of strings. -/
def joinNL : List (List Char) → List Char
  | [] => []
  | [s] => s
  | s :: t :: rest => s ++ '\n' :: joinNL (t :: rest)

/-- JS `s.replace(/c/g, rep)` for a single-character pattern `c`: every
occurrence of `c` is replaced by `rep` in one left-to-right pass; characters
introduced by `rep` are not rescanned. -/
def replChar (c : Char) (rep : List Char) : List Char → List Char
  | [] => []
  | a :: rest => (if a = c then rep else [a]) ++ replChar c rep rest

/-- Whether `p` is an initial segment of `l` (used to state which emitted
lines carry a given vCard property name). -/
def beginsWith : List Char → List Char → Bool
  | [], _ => true
  | _ :: _, [] => false
  | a :: as, b :: bs => a == b && beginsWith as bs

/-- The decimal rendering of a JS number in a template literal, for the
timestamps and indices used in generated ids. -/
def natChars (n : Nat) : List Char := (Nat.repr n).data

/-- Id `contact-${Date.now()}-${idx}` (variant 2 `parseTextInput`/`handleFile`,
variant 1 `handleFile`).  `Date.now()` is modelled as the explicit parameter
`now`. -/
def mkContactId (now idx : Nat) : List Char :=
  "contact-".data ++ natChars now ++ "-".data ++ natChars idx

/-- Id `contact-${Date.now()}` (variant 1 `addManual`). -/
def mkContactIdNow (now : Nat) : List Char :=
  "contact-".data ++ natChars now

namespace V1

/-- `Contact` of the first `App.tsx` revision (the derived `qrDataUrl`, produced
by the external QR collaborator, is out of scope and omitted). -/
structure Contact where
  id : List Char
  name : List Char
  designation : List Char
  department : List Char
  location : List Char
  address : List Char
  mobile : List Char
  email : List Char
deriving DecidableEq, Repr

/-- The line array built by variant 1 `buildVCard` (src/App.tsx:17-31) before
`.join('\n')`.  A JS conjunct `c.f && line` evaluates to `''` when the field
is empty, and `.filter(Boolean)` then drops it. -/
def buildVCardLines (c : Contact) : List (List Char) :=
  ([ "BEGIN:VCARD".data,
     "VERSION:3.0".data,
     "FN:".data ++ c.name,
     if c.designation = [] then [] else "TITLE:".data ++ c.designation,
     if c.department = [] then [] else "ORG:".data ++ c.department,
     if c.mobile = [] then [] else "TEL;CELL:".data ++ c.mobile,
     if c.email = [] then [] else "EMAIL:".data ++ c.email,
     if c.address = [] then []
     else if c.location = [] then []
     else "ADR;TYPE=WORK:;;".data ++ c.address ++ ";".data ++ c.location ++ ";;".data,
     "END:VCARD".data ]).filter (fun l => l ≠ [])

/-- Variant 1 `buildVCard` (src/App.tsx:17-31). -/
def buildVCard (c : Contact) : List Char := joinNL (buildVCardLines c)

/-- The manual-entry form state of variant 1 (all fields initialised to `''`). -/
structure ManualForm where
  name : List Char
  designation : List Char
  department : List Char
  location : List Char
  address : List Char
  mobile : List Char
  email : List Char
deriving DecidableEq, Repr

/-- Variant 1 `addManual` (src/App.tsx:72-89) as a state transition on the
contact list: `if (!manual.name) return alert('Name required')` rejects exactly
the empty name (the only falsy string); otherwise one contact is built from the
form fields and appended (`generateQRCodesAndSet([newContact], true)`).
Returns the new contact list and the alert message, if any. -/
def addManual (now : Nat) (m : ManualForm) (prev : List Contact) :
    List Contact × Option (List Char) :=
  if m.name = [] then (prev, some "Name required".data)
  else
    (prev ++ [{ id := mkContactIdNow now,
                name := m.name,
                designation := m.designation,
                department := m.department,
                location := m.location,
                address := m.address,
                mobile := m.mobile,
                email := m.email }], none)

end V1

namespace V2

/-- `Contact` of the second `App.tsx` revision.  `rawText` is optional in the
source (`rawText?: string`); `qrDataUrl` is external and omitted. -/
structure Contact where
  id : List Char
  name : List Char
  designation : List Char
  location : List Char
  address : List Char
  rawText : Option (List Char)
deriving DecidableEq, Repr

/-- `escapeVCardText` (src/App.tsx second revision): four global single-pass
replacements, applied in the order backslash, newline, comma, semicolon. -/
def escapeVCardText (s : List Char) : List Char :=
  replChar ';' "\\;".data
    (replChar ',' "\\,".data
      (replChar '\n' "\\n".data
        (replChar '\\' "\\\\".data s)))

/-- The line array built by variant 2 `buildVCard` before `.join('\n')`. -/
def buildVCardLines (c : Contact) : List (List Char) :=
  ([ "BEGIN:VCARD".data,
     "VERSION:3.0".data,
     "FN:".data ++ escapeVCardText c.name,
     if c.designation = [] then [] else "TITLE:".data ++ escapeVCardText c.designation,
     if c.address = [] then [] else "NOTE:".data ++ escapeVCardText c.address,
     "END:VCARD".data ]).filter (fun l => l ≠ [])

/-- Variant 2 `buildVCard` (second revision of src/App.tsx). -/
def buildVCard (c : Contact) : List Char := joinNL (buildVCardLines c)

/-- Body of the `blocks.forEach((block, idx) => ...)` loop of `parseTextInput`:
split the block into trimmed non-empty lines; yield no contact when there are
none, else line 1 is the name, line 2 (if present) the designation, the lines
from index 2 on (further filtered for non-emptiness, a no-op) joined by
newline are the address; `location` is always set to `''` and the original
block is kept as `rawText`. -/
def parseBlock (now idx : Nat) (block : List Char) : Option Contact :=
  let lines := ((splitLines block).map jsTrim).filter (fun l => l ≠ [])
  if lines.length = 0 then none
  else some
    { id := mkContactId now idx,
      name := (lines.get? 0).getD [],
      designation := if 1 < lines.length then (lines.get? 1).getD [] else [],
      location := [],
      address := joinNL ((lines.drop 2).filter (fun l => l ≠ [])),
      rawText := some block }

/-- `parseTextInput` (second revision of src/App.tsx): trim the whole text,
split on `'\n\n'`, drop blocks that are blank after trimming, and turn each
remaining block into one contact, indexed by its position in the filtered
block array. -/
def parseTextInput (now : Nat) (text : List Char) : List Contact :=
  let blocks := (splitNN (jsTrim text)).filter (fun b => jsTrim b ≠ [])
  blocks.enum.filterMap (fun p => parseBlock now p.1 p.2)

/-- The fixed exclusion set of the spreadsheet mapping in variant 2
`handleFile`. -/
def excludedHeaders : List (List Char) :=
  ["Name".data, "Designation And Department".data, "Location".data]

/-- The row-to-contact mapping of variant 2 `handleFile`: a row is the ordered
header/cell-value association produced by the spreadsheet collaborator
(values already coerced to strings, missing cells defaulting to `''`).
Every column outside the exclusion set whose trimmed value is non-empty
contributes its trimmed value, in column order, to `address`. -/
def mapRow (now idx : Nat) (row : List (List Char × List Char)) : Contact :=
  { id := mkContactId now idx,
    name := jsTrim (((row.lookup "Name".data).getD [])),
    designation := jsTrim (((row.lookup "Designation And Department".data).getD [])),
    location := jsTrim (((row.lookup "Location".data).getD [])),
    address := joinNL
      (((row.filter (fun kv => kv.1 ∉ excludedHeaders ∧ jsTrim kv.2 ≠ [])).map
        (fun kv => jsTrim kv.2))),
    rawText := none }

end V2

namespace V3

def isDigitChar (c : Char) : Bool := '0' ≤ c && c ≤ '9'

def isAlphaChar (c : Char) : Bool := ('A' ≤ c && c ≤ 'Z') || ('a' ≤ c && c ≤ 'z')

/-- The character class `[A-Za-z0-9._%+-]` of the email regex's local part. -/
def isLocalChar (c : Char) : Bool :=
  isAlphaChar c || isDigitChar c || c = '.' || c = '_' || c = '%' || c = '+' || c = '-'

/-- The character class `[A-Za-z0-9.-]` of the email regex's domain part. -/
def isDomainChar (c : Char) : Bool :=
  isAlphaChar c || isDigitChar c || c = '.' || c = '-'

/-- Match of `(01[0-9]{9,})|(\+?88[0-9]{11,})` anchored at the start of `l`:
ordered alternation, greedy repetition (nothing follows the repetition, so
greediness is just the maximal digit run). -/
def matchPhoneAt (l : List Char) : Option (List Char) :=
  match l with
  | '0' :: '1' :: rest =>
    let ds := rest.takeWhile isDigitChar
    if 9 ≤ ds.length then some ('0' :: '1' :: ds) else altTwo l
  | _ => altTwo l
where
  /-- second alternative `\+?88[0-9]{11,}` -/
  altTwo : List Char → Option (List Char)
  | '+' :: '8' :: '8' :: rest =>
    let ds := rest.takeWhile isDigitChar
    if 11 ≤ ds.length then some ('+' :: '8' :: '8' :: ds) else none
  | '8' :: '8' :: rest =>
    let ds := rest.takeWhile isDigitChar
    if 11 ≤ ds.length then some ('8' :: '8' :: ds) else none
  | _ => none

/-- `addressAndOthers.match(phoneRegex)`: the match at the leftmost position
where either alternative succeeds. -/
def findPhone : List Char → Option (List Char)
  | [] => none
  | c :: rest =>
    match matchPhoneAt (c :: rest) with
    | some m => some m
    | none => findPhone rest

/-- Backtracking of `[A-Za-z0-9.-]+\.[A-Za-z]{2,}` inside the maximal
domain-class run `d`: the `+` starts maximal and backs off, so the literal dot
is placed at the largest index `j ≥ 1` such that `d[j] = '.'` and at least two
letters follow; `[A-Za-z]{2,}` then greedily takes the maximal letter run. -/
def emailDomainSplit (d : List Char) : Nat → Option (List Char)
  | 0 => none
  | j + 1 =>
    if d.get? (j + 1) = some '.' ∧ 2 ≤ ((d.drop (j + 2)).takeWhile isAlphaChar).length
    then some (d.take (j + 1) ++ '.' :: (d.drop (j + 2)).takeWhile isAlphaChar)
    else emailDomainSplit d j

/-- Match of `[A-Za-z0-9._%+-]+@[A-Za-z0-9.-]+\.[A-Za-z]{2,}` anchored at the
start of `l`.  `@` is outside the local character class, so the greedy local
part needs no backtracking; the domain part backtracks as in
`emailDomainSplit`. -/
def matchEmailAt (l : List Char) : Option (List Char) :=
  let loc := l.takeWhile isLocalChar
  if loc = [] then none
  else
    match l.drop loc.length with
    | '@' :: rest =>
      let d := rest.takeWhile isDomainChar
      match emailDomainSplit d (d.length - 1) with
      | some dm => some (loc ++ '@' :: dm)
      | none => none
    | _ => none

/-- `addressAndOthers.match(emailRegex)`: leftmost match. -/
def findEmail : List Char → Option (List Char)
  | [] => none
  | c :: rest =>
    match matchEmailAt (c :: rest) with
    | some m => some m
    | none => findEmail rest

/-- The contact argument of the part_000 `buildVCard` (optional fields already
defaulted to `''`, as by its destructuring defaults). -/
structure ContactArg where
  name : List Char
  designation : List Char
  location : List Char
  addressAndOthers : List Char
deriving DecidableEq, Repr

/-- `escapeV` of part_000: only the newline and comma replacements. -/
def escapeV (s : List Char) : List Char :=
  replChar ',' "\\,".data (replChar '\n' "\\n".data s)

/-- The line array pushed by the part_000 `buildVCard` before `.join('\n')`:
FN, N, TITLE, ORG and NOTE are unconditional; TEL and EMAIL are pushed only
when the corresponding regex matched. -/
def buildVCardLines (c : ContactArg) : List (List Char) :=
  ([ "BEGIN:VCARD".data,
     "VERSION:3.0".data,
     "FN:".data ++ escapeV c.name,
     "N:".data ++ escapeV c.name ++ ";;;;".data,
     "TITLE:".data ++ escapeV c.designation,
     "ORG:".data ++ escapeV c.location,
     "NOTE:".data ++ escapeV c.addressAndOthers ] ++
   (match findPhone c.addressAndOthers with
    | some ph => ["TEL;TYPE=CELL:".data ++ ph]
    | none => []) ++
   (match findEmail c.addressAndOthers with
    | some em => ["EMAIL;TYPE=INTERNET:".data ++ em]
    | none => []) ++
   [ "END:VCARD".data ])

/-- `buildVCard` of src/unnamed/part_000. -/
def buildVCard (c : ContactArg) : List Char := joinNL (buildVCardLines c)

end V3

/-! Sanity checks of the embedded JS primitives on concrete inputs. -/

example : jsTrim " \n a b\n\n".data = "a b".data := by decide
example : splitNN "a\n\nb\n\n\nc".data = ["a".data, "b".data, "\nc".data] := by decide
example : V3.findPhone "call 01716102732 now".data = some "01716102732".data := by decide
example : V3.findPhone "+8801847196403".data = some "+8801847196403".data := by decide
example : V3.findPhone "0171610273".data = none := by decide
example : V3.findEmail "x nusrat.jahan@bracbank.com y".data
    = some "nusrat.jahan@bracbank.com".data := by decide
example : V3.findEmail "a@b.c".data = none := by decide
example : V3.findEmail "x@ab.cd.e".data = some "x@ab.cd".data := by decide
example : V2.escapeVCardText "a,b;c\nd\\e".data = "a\\,b\\;c\\nd\\\\e".data := by decide

/-! Projections used to compare parser outputs claim-wise (the generated `id`
embeds the `Date.now()` reading, the `rawText` the verbatim block). -/

/-- All fields of a variant-2 contact except the generated `id`. -/
def contactFields (c : V2.Contact) :
    List Char × List Char × List Char × List Char × Option (List Char) :=
  (c.name, c.designation, c.location, c.address, c.rawText)

/-- The name/designation/address triple of a variant-2 contact. -/
def contactTriple (c : V2.Contact) : List Char × List Char × List Char :=
  (c.name, c.designation, c.address)

/-! ### C3: the freeform parse of the two-block sample input -/

/-- C3: on the input `"Alice\nManager\n123 Main St\nCell: 555-1234\n\nBob\nEngineer"`,
`parseTextInput` yields exactly two contacts, in order: name `"Alice"`,
designation `"Manager"`, address `"123 Main St\nCell: 555-1234"`, then name
`"Bob"`, designation `"Engineer"`, address `""` — for every clock reading
`now` used for the generated ids. -/
theorem C3_sample_parse (now : Nat) :
    (V2.parseTextInput now
        "Alice\nManager\n123 Main St\nCell: 555-1234\n\nBob\nEngineer".data).length = 2 ∧
    (V2.parseTextInput now
        "Alice\nManager\n123 Main St\nCell: 555-1234\n\nBob\nEngineer".data).map contactTriple
      = [("Alice".data, "Manager".data, "123 Main St\nCell: 555-1234".data),
         ("Bob".data, "Engineer".data, [])] :=
  ⟨rfl, rfl⟩

/-! ### C9: determinism of the freeform parse -/

/-- C9 counterexample: two invocations of the parser on the identical text
`"A"` with different `Date.now()` readings produce contact sequences that are
not identical, because the generated `id` embeds the clock reading. -/
theorem C9_counterexample :
    V2.parseTextInput 0 "A".data ≠ V2.parseTextInput 1 "A".data := by decide

/-- The fields of the optional contact produced from one block depend only on
the block, not on the clock reading or the block index (which only enter the
generated `id`). -/
theorem parseBlock_fields_eq (now₁ now₂ i j : Nat) (b : List Char) :
    (V2.parseBlock now₁ i b).map contactFields = (V2.parseBlock now₂ j b).map contactFields := by
  unfold V2.parseBlock
  dsimp only
  split_ifs <;> simp [contactFields]

/-- C9 amended: the parser is pure and deterministic up to the generated `id`:
for any two clock readings, both invocations on the same text agree on the
contact count and on every field other than `id` (name, designation, location,
address, rawText) at every position. -/
theorem C9_deterministic_fields (now₁ now₂ : Nat) (text : List Char) :
    (V2.parseTextInput now₁ text).map contactFields
      = (V2.parseTextInput now₂ text).map contactFields := by
  show ((List.enumFrom 0 _).filterMap (fun p => V2.parseBlock now₁ p.1 p.2)).map contactFields
      = ((List.enumFrom 0 _).filterMap (fun p => V2.parseBlock now₂ p.1 p.2)).map contactFields
  generalize (splitNN (jsTrim text)).filter (fun b => jsTrim b ≠ []) = blocks
  generalize 0 = i
  induction blocks generalizing i with
  | nil => rfl
  | cons b bs ih =>
    simp only [List.enumFrom_cons, List.filterMap_cons]
    have hb := parseBlock_fields_eq now₁ now₂ i i b
    cases h1 : V2.parseBlock now₁ i b with
    | none =>
      rw [h1] at hb
      cases h2 : V2.parseBlock now₂ i b with
      | none => exact ih (i + 1)
      | some c => rw [h2] at hb; simp at hb
    | some c =>
      rw [h1] at hb
      cases h2 : V2.parseBlock now₂ i b with
      | none => rw [h2] at hb; simp at hb
      | some c' =>
        rw [h2] at hb
        simp only [Option.map_some'] at hb
        simp only [List.map_cons, ih (i + 1)]
        injection hb with hb'
        rw [hb']

/-! ### C4: manual-entry validation -/

/-- C4 counterexample: a manual submission whose name is the single blank
`" "` (whitespace-only, not empty) is not rejected: no alert is raised and a
contact is appended to the previously empty list. -/
theorem C4_counterexample :
    (V1.addManual 0 ⟨" ".data, [], [], [], [], [], []⟩ []).2 = none ∧
    (V1.addManual 0 ⟨" ".data, [], [], [], [], [], []⟩ []).1 ≠ [] := by decide

/-- C4 amended: `addManual` rejects exactly the empty name: when `name = ''`
the contact list is unchanged and the `'Name required'` alert is raised; for
any other name (including whitespace-only ones) exactly one contact built from
the form fields is appended and no alert is raised. -/
theorem C4_empty_name_only (now : Nat) (m : V1.ManualForm) (prev : List V1.Contact) :
    (m.name = [] → V1.addManual now m prev = (prev, some "Name required".data)) ∧
    (m.name ≠ [] →
      V1.addManual now m prev =
        (prev ++ [{ id := mkContactIdNow now,
                    name := m.name,
                    designation := m.designation,
                    department := m.department,
                    location := m.location,
                    address := m.address,
                    mobile := m.mobile,
                    email := m.email }], none)) := by
  constructor <;> intro h <;> simp [V1.addManual, h]

/-- Witness for `C4_empty_name_only` at the empty and at a non-empty name. -/
theorem C4_empty_name_only_witness :
    (V1.addManual 0 ⟨[], [], [], [], [], [], []⟩ [] = ([], some "Name required".data)) ∧
    (V1.addManual 0 ⟨"A".data, [], [], [], [], [], []⟩ [] =
      ([{ id := mkContactIdNow 0, name := "A".data, designation := [], department := [],
          location := [], address := [], mobile := [], email := [] }], none)) :=
  ⟨(C4_empty_name_only 0 ⟨[], [], [], [], [], [], []⟩ []).1 rfl,
   (C4_empty_name_only 0 ⟨"A".data, [], [], [], [], [], []⟩ []).2 (by decide)⟩

/-! ### C8: spreadsheet mapping of unrecognized columns into `address` -/

/-- The address lines demanded by claim C8 as stated: every column outside the
exclusion set contributes its (raw) cell value as one line. -/
def claimedAddressCells (row : List (List Char × List Char)) : List (List Char) :=
  (row.filter (fun kv => kv.1 ∉ V2.excludedHeaders)).map (fun kv => kv.2)

/-- The address lines the mapping actually produces, stated in the amended
form: a column outside the exclusion set contributes its trimmed value iff
that trimmed value is non-empty; excluded and blank columns contribute
nothing. -/
def aggregatedAddressCells (row : List (List Char × List Char)) : List (List Char) :=
  row.filterMap (fun kv =>
    if kv.1 ∈ V2.excludedHeaders then none
    else if jsTrim kv.2 = [] then none
    else some (jsTrim kv.2))

/-- C8 counterexample: in the row `Name: "A", X: " ", Y: " b "` the
non-excluded column `X` holds a blank value and `Y` an untrimmed one; contrary
to the claim, `X` contributes no line at all and `Y` contributes the trimmed
`"b"`, so `address` is `"b"` rather than the claimed `" \n b "`. -/
theorem C8_counterexample :
    (V2.mapRow 0 0
        [("Name".data, "A".data), ("X".data, " ".data), ("Y".data, " b ".data)]).address
      = "b".data ∧
    (V2.mapRow 0 0
        [("Name".data, "A".data), ("X".data, " ".data), ("Y".data, " b ".data)]).address
      ≠ joinNL (claimedAddressCells
        [("Name".data, "A".data), ("X".data, " ".data), ("Y".data, " b ".data)]) := by
  decide

/-- C8 amended: for every row, `address` is the newline-join of the trimmed
values of exactly those columns that are outside the exclusion set
`Name` / `Designation And Department` / `Location` and whose trimmed value is
non-empty, in the original column order; excluded columns and blank columns
never contribute. -/
theorem C8_address_aggregation (now idx : Nat) (row : List (List Char × List Char)) :
    (V2.mapRow now idx row).address = joinNL (aggregatedAddressCells row) := by
  show joinNL _ = joinNL _
  congr 1
  induction row with
  | nil => rfl
  | cons kv rest ih =>
    by_cases h1 : kv.1 ∈ V2.excludedHeaders <;> by_cases h2 : jsTrim kv.2 = [] <;>
      simp [aggregatedAddressCells, h1, h2, List.filter_cons, List.filterMap_cons] at ih ⊢ <;>
      exact ih

/-! ### C2: the vCard text-escaping rules -/

/-- The escaping table of the spec, as one character-wise substitution:
backslash, newline, comma and semicolon map to their escaped forms, every
other character to itself. -/
def specEscapeChar (a : Char) : List Char :=
  if a = '\\' then "\\\\".data
  else if a = '\n' then "\\n".data
  else if a = ',' then "\\,".data
  else if a = ';' then "\\;".data
  else [a]

/-- The two-rule table actually used by part_000's `escapeV` (newline and
comma only). -/
def escapeVChar (a : Char) : List Char :=
  if a = '\n' then "\\n".data
  else if a = ',' then "\\,".data
  else [a]

theorem replChar_append (c : Char) (rep x y : List Char) :
    replChar c rep (x ++ y) = replChar c rep x ++ replChar c rep y := by
  induction x with
  | nil => rfl
  | cons a as ih => simp [replChar, ih]

theorem escapeVCardText_append (x y : List Char) :
    V2.escapeVCardText (x ++ y) = V2.escapeVCardText x ++ V2.escapeVCardText y := by
  simp [V2.escapeVCardText, replChar_append]

theorem escapeV_append (x y : List Char) :
    V3.escapeV (x ++ y) = V3.escapeV x ++ V3.escapeV y := by
  simp [V3.escapeV, replChar_append]

/-- C2 counterexample: not every variant escapes every field value with all
four rules.  The first revision's `buildVCard` inserts the name `"a;b"`
verbatim, leaving the semicolon unescaped, and part_000's `escapeV` leaves a
semicolon unchanged instead of producing `"\;"`. -/
theorem C2_counterexample :
    V1.buildVCard ⟨[], "a;b".data, [], [], [], [], [], []⟩
      = "BEGIN:VCARD\nVERSION:3.0\nFN:a;b\nEND:VCARD".data ∧
    "a;b".data ≠ "a\\;b".data ∧
    V3.escapeV ";".data = ";".data := by decide

/-- C2 amended: only the second revision applies the full escaping.  Its
`escapeVCardText` — four global replacements in the exact order backslash,
newline, comma, semicolon — coincides with the single-pass character-wise
substitution `specEscapeChar`, so a backslash introduced by escaping a newline
is never itself re-escaped; part_000's `escapeV` coincides with the
character-wise substitution of its two rules (newline, comma) only, and the
first revision's `buildVCard` applies no escaping at all (witnessed by the
counterexample). -/
theorem escapeVCardText_eq_subst (s : List Char) :
    V2.escapeVCardText s = s.flatMap specEscapeChar := by
  induction s with
  | nil => rfl
  | cons a as ih =>
    show V2.escapeVCardText ([a] ++ as) = _
    rw [escapeVCardText_append, List.flatMap_cons, ih]
    congr 1
    by_cases h1 : a = '\\' <;> by_cases h2 : a = '\n' <;>
      by_cases h3 : a = ',' <;> by_cases h4 : a = ';' <;>
      simp_all [V2.escapeVCardText, replChar, specEscapeChar]

theorem escapeV_eq_subst (s : List Char) :
    V3.escapeV s = s.flatMap escapeVChar := by
  induction s with
  | nil => rfl
  | cons a as ih =>
    show V3.escapeV ([a] ++ as) = _
    rw [escapeV_append, List.flatMap_cons, ih]
    congr 1
    by_cases h2 : a = '\n' <;> by_cases h3 : a = ',' <;>
      simp_all [V3.escapeV, replChar, escapeVChar]

theorem C2_escaping_single_pass :
    (∀ s, V2.escapeVCardText s = s.flatMap specEscapeChar) ∧
    (∀ s, V3.escapeV s = s.flatMap escapeVChar) :=
  ⟨escapeVCardText_eq_subst, escapeV_eq_subst⟩

/-! ### C1: vCard output delimiters -/

theorem joinNL_cons_of_ne_nil (a : List Char) (l : List (List Char)) (h : l ≠ []) :
    joinNL (a :: l) = a ++ '\n' :: joinNL l := by
  cases l with
  | nil => exact absurd rfl h
  | cons x xs => rfl

theorem joinNL_append_last (l : List (List Char)) (e : List Char) :
    ∃ p, joinNL (l ++ [e]) = p ++ e := by
  induction l with
  | nil => exact ⟨[], rfl⟩
  | cons a as ih =>
    obtain ⟨p, hp⟩ := ih
    refine ⟨a ++ '\n' :: p, ?_⟩
    rw [List.cons_append, joinNL_cons_of_ne_nil a (as ++ [e]) (by simp), hp]
    simp

/-- A line list of the common shape `BEGIN :: VERSION :: mid ++ [END]` joins
into a string that starts with `"BEGIN:VCARD\nVERSION:3.0\n"` and ends with
`"END:VCARD"` (with nothing after it). -/
theorem joinNL_delimiters (mid : List (List Char)) :
    (∃ r, joinNL ("BEGIN:VCARD".data :: "VERSION:3.0".data :: mid ++ ["END:VCARD".data])
        = "BEGIN:VCARD\nVERSION:3.0\n".data ++ r) ∧
    (∃ p, joinNL ("BEGIN:VCARD".data :: "VERSION:3.0".data :: mid ++ ["END:VCARD".data])
        = p ++ "END:VCARD".data) := by
  constructor
  · refine ⟨joinNL (mid ++ ["END:VCARD".data]), ?_⟩
    show "BEGIN:VCARD".data ++ '\n' ::
        joinNL ("VERSION:3.0".data :: (mid ++ ["END:VCARD".data])) = _
    rw [joinNL_cons_of_ne_nil "VERSION:3.0".data (mid ++ ["END:VCARD".data]) (by simp)]
    show _ = ("BEGIN:VCARD".data ++ '\n' :: ("VERSION:3.0".data ++ ['\n'])) ++ _
    simp
  · obtain ⟨p, hp⟩ :=
      joinNL_append_last ("BEGIN:VCARD".data :: "VERSION:3.0".data :: mid) "END:VCARD".data
    exact ⟨p, hp⟩

theorem V1_buildVCardLines_shape (c : V1.Contact) :
    ∃ mid, V1.buildVCardLines c
      = "BEGIN:VCARD".data :: "VERSION:3.0".data :: mid ++ ["END:VCARD".data] := by
  refine ⟨?_, ?_⟩
  · exact (("FN:".data ++ c.name) ::
      [ if c.designation = [] then [] else "TITLE:".data ++ c.designation,
        if c.department = [] then [] else "ORG:".data ++ c.department,
        if c.mobile = [] then [] else "TEL;CELL:".data ++ c.mobile,
        if c.email = [] then [] else "EMAIL:".data ++ c.email,
        if c.address = [] then []
        else if c.location = [] then []
        else "ADR;TYPE=WORK:;;".data ++ c.address ++ ";".data ++ c.location ++ ";;".data
      ].filter (fun l => l ≠ []))
  · show V1.buildVCardLines c
      = "BEGIN:VCARD".data :: "VERSION:3.0".data :: (_ :: List.filter _ _) ++ _
    unfold V1.buildVCardLines
    rw [show ([ "BEGIN:VCARD".data,
     "VERSION:3.0".data,
     "FN:".data ++ c.name,
     if c.designation = [] then [] else "TITLE:".data ++ c.designation,
     if c.department = [] then [] else "ORG:".data ++ c.department,
     if c.mobile = [] then [] else "TEL;CELL:".data ++ c.mobile,
     if c.email = [] then [] else "EMAIL:".data ++ c.email,
     if c.address = [] then []
     else if c.location = [] then []
     else "ADR;TYPE=WORK:;;".data ++ c.address ++ ";".data ++ c.location ++ ";;".data,
     "END:VCARD".data ] : List (List Char))
      = ["BEGIN:VCARD".data, "VERSION:3.0".data, "FN:".data ++ c.name] ++
        [ if c.designation = [] then [] else "TITLE:".data ++ c.designation,
          if c.department = [] then [] else "ORG:".data ++ c.department,
          if c.mobile = [] then [] else "TEL;CELL:".data ++ c.mobile,
          if c.email = [] then [] else "EMAIL:".data ++ c.email,
          if c.address = [] then []
          else if c.location = [] then []
          else "ADR;TYPE=WORK:;;".data ++ c.address ++ ";".data ++ c.location ++ ";;".data ] ++
        ["END:VCARD".data] from rfl]
    rw [List.filter_append, List.filter_append]
    simp [List.filter_cons]

theorem V2_buildVCardLines_shape (c : V2.Contact) :
    ∃ mid, V2.buildVCardLines c
      = "BEGIN:VCARD".data :: "VERSION:3.0".data :: mid ++ ["END:VCARD".data] := by
  refine ⟨("FN:".data ++ V2.escapeVCardText c.name) ::
      [ if c.designation = [] then [] else "TITLE:".data ++ V2.escapeVCardText c.designation,
        if c.address = [] then [] else "NOTE:".data ++ V2.escapeVCardText c.address
      ].filter (fun l => l ≠ []), ?_⟩
  show V2.buildVCardLines c
      = "BEGIN:VCARD".data :: "VERSION:3.0".data :: (_ :: List.filter _ _) ++ _
  unfold V2.buildVCardLines
  rw [show ([ "BEGIN:VCARD".data,
     "VERSION:3.0".data,
     "FN:".data ++ V2.escapeVCardText c.name,
     if c.designation = [] then [] else "TITLE:".data ++ V2.escapeVCardText c.designation,
     if c.address = [] then [] else "NOTE:".data ++ V2.escapeVCardText c.address,
     "END:VCARD".data ] : List (List Char))
    = ["BEGIN:VCARD".data, "VERSION:3.0".data, "FN:".data ++ V2.escapeVCardText c.name] ++
      [ if c.designation = [] then [] else "TITLE:".data ++ V2.escapeVCardText c.designation,
        if c.address = [] then [] else "NOTE:".data ++ V2.escapeVCardText c.address ] ++
      ["END:VCARD".data] from rfl]
  rw [List.filter_append, List.filter_append]
  simp [List.filter_cons]

theorem V3_buildVCardLines_shape (c : V3.ContactArg) :
    ∃ mid, V3.buildVCardLines c
      = "BEGIN:VCARD".data :: "VERSION:3.0".data :: mid ++ ["END:VCARD".data] := by
  refine ⟨[ "FN:".data ++ V3.escapeV c.name,
            "N:".data ++ V3.escapeV c.name ++ ";;;;".data,
            "TITLE:".data ++ V3.escapeV c.designation,
            "ORG:".data ++ V3.escapeV c.location,
            "NOTE:".data ++ V3.escapeV c.addressAndOthers ] ++
          (match V3.findPhone c.addressAndOthers with
           | some ph => ["TEL;TYPE=CELL:".data ++ ph]
           | none => []) ++
          (match V3.findEmail c.addressAndOthers with
           | some em => ["EMAIL;TYPE=INTERNET:".data ++ em]
           | none => []), ?_⟩
  unfold V3.buildVCardLines
  simp [List.append_assoc]

/-- C1: for every contact of each of the three variants, the vCard output is
the newline-join of its line list, beginning with the exact text
`"BEGIN:VCARD\nVERSION:3.0\n"` and ending with the exact text `"END:VCARD"`
with nothing after it (in particular, no trailing blank line). -/
theorem C1_output_delimiters (c₁ : V1.Contact) (c₂ : V2.Contact) (c₃ : V3.ContactArg) :
    ((∃ r, V1.buildVCard c₁ = "BEGIN:VCARD\nVERSION:3.0\n".data ++ r) ∧
     (∃ p, V1.buildVCard c₁ = p ++ "END:VCARD".data)) ∧
    ((∃ r, V2.buildVCard c₂ = "BEGIN:VCARD\nVERSION:3.0\n".data ++ r) ∧
     (∃ p, V2.buildVCard c₂ = p ++ "END:VCARD".data)) ∧
    ((∃ r, V3.buildVCard c₃ = "BEGIN:VCARD\nVERSION:3.0\n".data ++ r) ∧
     (∃ p, V3.buildVCard c₃ = p ++ "END:VCARD".data)) := by
  obtain ⟨m₁, h₁⟩ := V1_buildVCardLines_shape c₁
  obtain ⟨m₂, h₂⟩ := V2_buildVCardLines_shape c₂
  obtain ⟨m₃, h₃⟩ := V3_buildVCardLines_shape c₃
  refine ⟨?_, ?_, ?_⟩
  · show (∃ r, joinNL (V1.buildVCardLines c₁) = _) ∧ ∃ p, joinNL (V1.buildVCardLines c₁) = _
    rw [h₁]; exact joinNL_delimiters m₁
  · show (∃ r, joinNL (V2.buildVCardLines c₂) = _) ∧ ∃ p, joinNL (V2.buildVCardLines c₂) = _
    rw [h₂]; exact joinNL_delimiters m₂
  · show (∃ r, joinNL (V3.buildVCardLines c₃) = _) ∧ ∃ p, joinNL (V3.buildVCardLines c₃) = _
    rw [h₃]; exact joinNL_delimiters m₃

/-! Expansions of the string literals of the line templates into explicit
character lists, for syntactic reasoning about emitted lines. -/

theorem dataBEGIN : "BEGIN:VCARD".data = 'B' :: 'E' :: 'G' :: 'I' :: 'N' :: ':' :: 'V' :: 'C' :: 'A' :: 'R' :: 'D' :: [] := rfl

theorem dataVERSION : "VERSION:3.0".data = 'V' :: 'E' :: 'R' :: 'S' :: 'I' :: 'O' :: 'N' :: ':' :: '3' :: '.' :: '0' :: [] := rfl

theorem dataFN : "FN:".data = 'F' :: 'N' :: ':' :: [] := rfl

theorem dataN : "N:".data = 'N' :: ':' :: [] := rfl

theorem dataTITLE : "TITLE:".data = 'T' :: 'I' :: 'T' :: 'L' :: 'E' :: ':' :: [] := rfl

theorem dataORG : "ORG:".data = 'O' :: 'R' :: 'G' :: ':' :: [] := rfl

theorem dataTELCELL : "TEL;CELL:".data = 'T' :: 'E' :: 'L' :: ';' :: 'C' :: 'E' :: 'L' :: 'L' :: ':' :: [] := rfl

theorem dataEMAIL : "EMAIL:".data = 'E' :: 'M' :: 'A' :: 'I' :: 'L' :: ':' :: [] := rfl

theorem dataADR : "ADR;TYPE=WORK:;;".data = 'A' :: 'D' :: 'R' :: ';' :: 'T' :: 'Y' :: 'P' :: 'E' :: '=' :: 'W' :: 'O' :: 'R' :: 'K' :: ':' :: ';' :: ';' :: [] := rfl

theorem dataNOTE : "NOTE:".data = 'N' :: 'O' :: 'T' :: 'E' :: ':' :: [] := rfl

theorem dataSEMIS : ";;;;".data = ';' :: ';' :: ';' :: ';' :: [] := rfl

theorem dataTELTYPE : "TEL;TYPE=CELL:".data = 'T' :: 'E' :: 'L' :: ';' :: 'T' :: 'Y' :: 'P' :: 'E' :: '=' :: 'C' :: 'E' :: 'L' :: 'L' :: ':' :: [] := rfl

theorem dataEMAILTYPE : "EMAIL;TYPE=INTERNET:".data = 'E' :: 'M' :: 'A' :: 'I' :: 'L' :: ';' :: 'T' :: 'Y' :: 'P' :: 'E' :: '=' :: 'I' :: 'N' :: 'T' :: 'E' :: 'R' :: 'N' :: 'E' :: 'T' :: ':' :: [] := rfl

theorem dataEND : "END:VCARD".data = 'E' :: 'N' :: 'D' :: ':' :: 'V' :: 'C' :: 'A' :: 'R' :: 'D' :: [] := rfl

/-! ### C5: conditional emission of TITLE and ORG lines -/

/-- C5 counterexample: the part_000 `buildVCard` pushes its TITLE and ORG
lines unconditionally, so for a contact whose designation and location are
both empty the line array still contains a (value-less) `TITLE:` line and
`ORG:` line, contrary to the claim that no such line appears. -/
theorem C5_counterexample :
    (⟨"A".data, [], [], []⟩ : V3.ContactArg).designation = [] ∧
    (⟨"A".data, [], [], []⟩ : V3.ContactArg).location = [] ∧
    "TITLE:".data ∈ V3.buildVCardLines ⟨"A".data, [], [], []⟩ ∧
    "ORG:".data ∈ V3.buildVCardLines ⟨"A".data, [], [], []⟩ := by decide

/-- C5 amended: emission is conditional only in the two `App.tsx` revisions.
In variant 1 the `TITLE:` line is emitted iff the designation is non-empty and
the `ORG:` line iff the department is non-empty; variant 2 emits its `TITLE:`
line iff the designation is non-empty and never emits any ORG line; the
part_000 variant emits a `TITLE:` and an `ORG:` line for every contact, with
empty values when the fields are empty. -/
theorem C5_title_org_emission :
    (∀ c₁ : V1.Contact,
      (("TITLE:".data ++ c₁.designation) ∈ V1.buildVCardLines c₁ ↔ c₁.designation ≠ []) ∧
      (("ORG:".data ++ c₁.department) ∈ V1.buildVCardLines c₁ ↔ c₁.department ≠ [])) ∧
    (∀ c₂ : V2.Contact,
      (("TITLE:".data ++ V2.escapeVCardText c₂.designation) ∈ V2.buildVCardLines c₂
          ↔ c₂.designation ≠ []) ∧
      (∀ l ∈ V2.buildVCardLines c₂, beginsWith "ORG:".data l = false)) ∧
    (∀ c₃ : V3.ContactArg,
      ("TITLE:".data ++ V3.escapeV c₃.designation) ∈ V3.buildVCardLines c₃ ∧
      ("ORG:".data ++ V3.escapeV c₃.location) ∈ V3.buildVCardLines c₃) := by
  refine ⟨fun c₁ => ?_, fun c₂ => ?_, fun c₃ => ?_⟩
  · by_cases h1 : c₁.designation = [] <;> by_cases h2 : c₁.department = [] <;>
      by_cases h3 : c₁.mobile = [] <;> by_cases h4 : c₁.email = [] <;>
      by_cases h5 : c₁.address = [] <;> by_cases h6 : c₁.location = [] <;>
      simp [V1.buildVCardLines, h1, h2, h3, h4, h5, h6, List.filter_cons,
        dataBEGIN, dataVERSION, dataFN, dataTITLE, dataORG, dataTELCELL,
        dataEMAIL, dataADR, dataEND]
  · constructor
    · by_cases h1 : c₂.designation = [] <;> by_cases h2 : c₂.address = [] <;>
        simp [V2.buildVCardLines, h1, h2, List.filter_cons,
          dataBEGIN, dataVERSION, dataFN, dataTITLE, dataNOTE, dataEND]
    · have hall : (V2.buildVCardLines c₂).all (fun l => !beginsWith "ORG:".data l) = true := by
        by_cases h1 : c₂.designation = [] <;> by_cases h2 : c₂.address = [] <;>
          simp [V2.buildVCardLines, h1, h2, List.filter_cons, beginsWith,
            dataBEGIN, dataVERSION, dataFN, dataTITLE, dataNOTE, dataEND, dataORG]
      intro l hl
      simpa using List.all_eq_true.mp hall l hl
  · constructor <;> simp [V3.buildVCardLines]

/-! ### C6: conditional emission of the TEL line -/

theorem takeWhile_filter_self (p : Char → Bool) (l : List Char) :
    (l.takeWhile p).filter p = l.takeWhile p :=
  List.filter_eq_self.mpr (fun _ ha => List.mem_takeWhile_imp ha)

theorem matchPhoneAt_altTwo_digits (l ph : List Char)
    (h : V3.matchPhoneAt.altTwo l = some ph) :
    10 ≤ (ph.filter V3.isDigitChar).length := by
  unfold V3.matchPhoneAt.altTwo at h
  split at h <;> (try dsimp only at h)
  · split_ifs at h with hd
    · injection h with h
      subst h
      simp [List.filter_cons, takeWhile_filter_self, V3.isDigitChar]
      omega
  · split_ifs at h with hd
    · injection h with h
      subst h
      simp [List.filter_cons, takeWhile_filter_self, V3.isDigitChar]
      omega
  · cases h

theorem matchPhoneAt_digits (l ph : List Char) (h : V3.matchPhoneAt l = some ph) :
    10 ≤ (ph.filter V3.isDigitChar).length := by
  unfold V3.matchPhoneAt at h
  split at h <;> (try dsimp only at h)
  · split_ifs at h with hd
    · injection h with h
      subst h
      simp [List.filter_cons, takeWhile_filter_self, V3.isDigitChar]
      omega
    · exact matchPhoneAt_altTwo_digits _ _ h
  · exact matchPhoneAt_altTwo_digits _ _ h

/-- Every string the phone regex extracts contains at least 10 digits (the
first alternative guarantees 11, the second 13). -/
theorem findPhone_digits (s ph : List Char) (h : V3.findPhone s = some ph) :
    10 ≤ (ph.filter V3.isDigitChar).length := by
  induction s with
  | nil => cases h
  | cons c rest ih =>
    unfold V3.findPhone at h
    split at h
    · injection h with h; subst h
      exact matchPhoneAt_digits _ _ (by assumption)
    · exact ih h

/-- C6: a `TEL;TYPE=CELL:` line is emitted exactly by the part_000 variant and
exactly when its phone pattern matches the combined free-text field, carrying
the matched substring (which always has at least 10 digits, see
`findPhone_digits`); when no phone number is present no line carrying the TEL
property is emitted in any variant — in variant 1 "present" means a non-empty
explicit `mobile` field, in variant 2 no phone field exists and no TEL line is
ever emitted. -/
theorem C6_tel_emission :
    (∀ c₃ : V3.ContactArg,
      (∀ ph, V3.findPhone c₃.addressAndOthers = some ph →
        ("TEL;TYPE=CELL:".data ++ ph) ∈ V3.buildVCardLines c₃ ∧
        10 ≤ (ph.filter V3.isDigitChar).length) ∧
      (V3.findPhone c₃.addressAndOthers = none →
        ∀ l ∈ V3.buildVCardLines c₃, beginsWith "TEL".data l = false)) ∧
    (∀ c₁ : V1.Contact, c₁.mobile = [] →
      ∀ l ∈ V1.buildVCardLines c₁, beginsWith "TEL".data l = false) ∧
    (∀ c₂ : V2.Contact, ∀ l ∈ V2.buildVCardLines c₂, beginsWith "TEL".data l = false) := by
  refine ⟨fun c₃ => ⟨fun ph hph => ⟨?_, findPhone_digits _ _ hph⟩, fun hnone => ?_⟩,
          fun c₁ h₁ => ?_, fun c₂ => ?_⟩
  · simp [V3.buildVCardLines, hph]
  · have hall : (V3.buildVCardLines c₃).all (fun l => !beginsWith "TEL".data l) = true := by
      cases hem : V3.findEmail c₃.addressAndOthers <;>
        simp [V3.buildVCardLines, hnone, hem, beginsWith,
          dataBEGIN, dataVERSION, dataFN, dataN, dataTITLE, dataORG, dataNOTE,
          dataEMAILTYPE, dataEND]
    intro l hl
    simpa using List.all_eq_true.mp hall l hl
  · have hall : (V1.buildVCardLines c₁).all (fun l => !beginsWith "TEL".data l) = true := by
      by_cases g1 : c₁.designation = [] <;> by_cases g2 : c₁.department = [] <;>
        by_cases g3 : c₁.email = [] <;> by_cases g4 : c₁.address = [] <;>
        by_cases g5 : c₁.location = [] <;>
        simp [V1.buildVCardLines, h₁, g1, g2, g3, g4, g5, List.filter_cons, beginsWith,
          dataBEGIN, dataVERSION, dataFN, dataTITLE, dataORG, dataEMAIL, dataADR, dataEND]
    intro l hl
    simpa using List.all_eq_true.mp hall l hl
  · have hall : (V2.buildVCardLines c₂).all (fun l => !beginsWith "TEL".data l) = true := by
      by_cases g1 : c₂.designation = [] <;> by_cases g2 : c₂.address = [] <;>
        simp [V2.buildVCardLines, g1, g2, List.filter_cons, beginsWith,
          dataBEGIN, dataVERSION, dataFN, dataTITLE, dataNOTE, dataEND]
    intro l hl
    simpa using List.all_eq_true.mp hall l hl

/-- Witness for `C6_tel_emission`: a concrete free-text field containing a
matching local mobile number produces the corresponding TEL line. -/
theorem C6_tel_emission_witness :
    V3.findPhone "tel 01716102732".data = some "01716102732".data ∧
    ("TEL;TYPE=CELL:".data ++ "01716102732".data) ∈
      V3.buildVCardLines ⟨"A".data, [], [], "tel 01716102732".data⟩ :=
  ⟨by decide, ((C6_tel_emission.1 ⟨"A".data, [], [], "tel 01716102732".data⟩).1
      "01716102732".data (by decide)).1⟩

/-! ### C10: parsed contacts always carry a non-empty name -/

/-- C10: every contact produced by the freeform parser has a non-empty name:
the name is the first line of its block that is non-empty after trimming, and
blocks with no such line produce no contact at all. -/
theorem C10_parsed_names_nonempty (now : Nat) (text : List Char) :
    ∀ c ∈ V2.parseTextInput now text, c.name ≠ [] := by
  intro c hc
  have hc' : c ∈ (((splitNN (jsTrim text)).filter (fun b => jsTrim b ≠ [])).enum).filterMap
      (fun p => V2.parseBlock now p.1 p.2) := hc
  obtain ⟨⟨i, b⟩, _, hsome⟩ := List.mem_filterMap.mp hc'
  revert hsome
  unfold V2.parseBlock
  dsimp only
  by_cases hlen : (((splitLines b).map jsTrim).filter (fun l => l ≠ [])).length = 0
  · rw [if_pos hlen]; intro h; cases h
  · rw [if_neg hlen]; intro h
    rcases hlines : ((splitLines b).map jsTrim).filter (fun l => l ≠ []) with _ | ⟨x, xs⟩
    · rw [hlines] at hlen; simp at hlen
    · rw [hlines] at h
      injection h with h
      subst h
      show (((x :: xs : List (List Char)).get? 0).getD []) ≠ []
      have hx : x ∈ ((splitLines b).map jsTrim).filter (fun l => l ≠ []) := by
        rw [hlines]; exact List.mem_cons_self x xs
      have := List.of_mem_filter hx
      simpa using this

/-- Witness for `C10_parsed_names_nonempty` at the one-block input `"A"`. -/
theorem C10_parsed_names_nonempty_witness :
    ({ id := mkContactId 0 0, name := "A".data, designation := [], location := [],
       address := [], rawText := some "A".data } : V2.Contact)
        ∈ V2.parseTextInput 0 "A".data ∧
    ({ id := mkContactId 0 0, name := "A".data, designation := [], location := [],
       address := [], rawText := some "A".data } : V2.Contact).name ≠ [] :=
  ⟨by decide, C10_parsed_names_nonempty 0 "A".data _ (by decide)⟩

/-- Witness for `C5_title_org_emission`: a variant-1 contact with non-empty
designation and department carries both lines. -/
theorem C5_title_org_emission_witness :
    ("TITLE:".data ++ "D".data) ∈
      V1.buildVCardLines ⟨[], "A".data, "D".data, "P".data, [], [], [], []⟩ ∧
    ("ORG:".data ++ "P".data) ∈
      V1.buildVCardLines ⟨[], "A".data, "D".data, "P".data, [], [], [], []⟩ :=
  ⟨(C5_title_org_emission.1 ⟨[], "A".data, "D".data, "P".data, [], [], [], []⟩).1.mpr
      (by decide),
   (C5_title_org_emission.1 ⟨[], "A".data, "D".data, "P".data, [], [], [], []⟩).2.mpr
      (by decide)⟩

/-! ### C7: invariance of the freeform parse under extra blank lines

The claim is formalised over a structured presentation of the input text: a
first block, a list of `(separator-newline-count, block)` pairs, and counts of
leading and trailing newlines.  A well-formed block is non-blank, contains no
two consecutive newlines and neither begins nor ends with a newline — exactly
the pieces the single-blank-line-separated canonical text is made of. -/

theorem isWs_nl : isWs '\n' = true := rfl

theorem trimL_append_of_nonWs {x : List Char} (y : List Char)
    (h : ∃ c ∈ x, isWs c = false) : trimL (x ++ y) = trimL x ++ y := by
  induction x with
  | nil => obtain ⟨c, hc, _⟩ := h; cases hc
  | cons a as ih =>
    by_cases ha : isWs a
    · rw [List.cons_append, trimL, List.dropWhile_cons_of_pos ha, trimL,
        List.dropWhile_cons_of_pos ha]
      apply ih
      obtain ⟨c, hc, hws⟩ := h
      rcases List.mem_cons.mp hc with rfl | hc
      · rw [ha] at hws; cases hws
      · exact ⟨c, hc, hws⟩
    · rw [List.cons_append, trimL, List.dropWhile_cons_of_neg ha, trimL,
        List.dropWhile_cons_of_neg ha]
      rfl

theorem trimL_replicate_nl (n : Nat) (x : List Char) :
    trimL (List.replicate n '\n' ++ x) = trimL x := by
  induction n with
  | zero => rfl
  | succ k ih =>
    rw [List.replicate_succ, List.cons_append, trimL,
      List.dropWhile_cons_of_pos isWs_nl]
    exact ih

theorem trimR_append_of_nonWs (x : List Char) {y : List Char}
    (h : ∃ c ∈ y, isWs c = false) : trimR (x ++ y) = x ++ trimR y := by
  unfold trimR
  rw [List.reverse_append,
    show List.dropWhile isWs (y.reverse ++ x.reverse)
        = List.dropWhile isWs y.reverse ++ x.reverse from
      trimL_append_of_nonWs x.reverse
        (by obtain ⟨c, hc, hws⟩ := h; exact ⟨c, List.mem_reverse.mpr hc, hws⟩),
    List.reverse_append, List.reverse_reverse]

theorem trimR_append_replicate_nl (x : List Char) (n : Nat) :
    trimR (x ++ List.replicate n '\n') = trimR x := by
  unfold trimR
  rw [List.reverse_append, List.reverse_replicate,
    show List.dropWhile isWs (List.replicate n '\n' ++ x.reverse)
        = List.dropWhile isWs x.reverse from trimL_replicate_nl n x.reverse]

theorem trimL_eq_nil_iff {l : List Char} : trimL l = [] ↔ ∀ c ∈ l, isWs c = true :=
  List.dropWhile_eq_nil_iff

theorem trimR_eq_nil_iff {l : List Char} : trimR l = [] ↔ ∀ c ∈ l, isWs c = true := by
  unfold trimR
  rw [List.reverse_eq_nil_iff, List.dropWhile_eq_nil_iff]
  constructor
  · intro h c hc; exact h c (List.mem_reverse.mpr hc)
  · intro h c hc; exact h c (List.mem_reverse.mp hc)

theorem mem_of_mem_trimL {c : Char} {l : List Char} (h : c ∈ trimL l) : c ∈ l := by
  have := List.takeWhile_append_dropWhile (l := l) (p := isWs)
  rw [← this]
  exact List.mem_append_right _ h

theorem jsTrim_eq_nil_iff {l : List Char} : jsTrim l = [] ↔ ∀ c ∈ l, isWs c = true := by
  unfold jsTrim
  rw [trimR_eq_nil_iff]
  constructor
  · intro h c hc
    have hsplit := List.takeWhile_append_dropWhile (p := isWs) (l := l)
    rw [← hsplit] at hc
    rcases List.mem_append.mp hc with h1 | h2
    · exact List.mem_takeWhile_imp h1
    · exact h c h2
  · intro h c hc
    exact h c (mem_of_mem_trimL hc)

theorem exists_nonWs_of_jsTrim_ne_nil {l : List Char} (h : jsTrim l ≠ []) :
    ∃ c ∈ l, isWs c = false := by
  by_contra hcon
  push_neg at hcon
  refine h (jsTrim_eq_nil_iff.mpr fun c hc => ?_)
  cases hw : isWs c
  · exact absurd hw (hcon c hc)
  · rfl

theorem trimL_ne_nil_of_jsTrim {l : List Char} (h : jsTrim l ≠ []) : trimL l ≠ [] := by
  intro hnil
  exact h (by unfold jsTrim; rw [hnil]; rfl)

theorem trimL_idem (l : List Char) : trimL (trimL l) = trimL l := by
  rcases h : trimL l with _ | ⟨a, as⟩
  · rfl
  · have ha : isWs a = false := by
      have := List.head?_dropWhile_not isWs l
      rw [show l.dropWhile isWs = trimL l from rfl, h] at this
      simpa using this
    rw [trimL, List.dropWhile_cons_of_neg (by simp [ha])]

theorem jsTrim_trimL (l : List Char) : jsTrim (trimL l) = jsTrim l := by
  unfold jsTrim
  rw [trimL_idem]

/-- Padding a text with leading and trailing newline runs does not change its
trim, as long as the text has any non-whitespace character. -/
theorem jsTrim_pad (lead trail : Nat) {m : List Char} (h : ∃ c ∈ m, isWs c = false) :
    jsTrim (List.replicate lead '\n' ++ m ++ List.replicate trail '\n') = jsTrim m := by
  unfold jsTrim
  rw [List.append_assoc, trimL_replicate_nl, trimL_append_of_nonWs _ h,
    trimR_append_replicate_nl]

/-- No two consecutive newline characters. -/
def noNN : List Char → Bool
  | [] => true
  | [_] => true
  | a :: b :: rest => !(a == '\n' && b == '\n') && noNN (b :: rest)

theorem noNN_cons_tail {a : Char} {l : List Char} (h : noNN (a :: l) = true) :
    noNN l = true := by
  cases l with
  | nil => rfl
  | cons b r =>
    rw [noNN, Bool.and_eq_true] at h
    exact h.2

theorem noNN_append_right {x y : List Char} (h : noNN (x ++ y) = true) :
    noNN y = true := by
  induction x with
  | nil => exact h
  | cons a as ih => exact ih (noNN_cons_tail h)

theorem splitNN_ne_nil (l : List Char) : splitNN l ≠ [] := by
  match l with
  | [] => simp [splitNN]
  | [c] => simp [splitNN]
  | c :: d :: rest =>
    rw [splitNN]
    split_ifs <;> simp

theorem splitNN_nil : splitNN [] = [[]] := rfl

theorem splitNN_nlnl (rest : List Char) :
    splitNN ('\n' :: '\n' :: rest) = [] :: splitNN rest := by
  rw [splitNN, if_pos ⟨rfl, rfl⟩]

theorem splitNN_cons (c : Char) (rest : List Char)
    (h : ¬(c = '\n' ∧ rest.head? = some '\n')) :
    splitNN (c :: rest) = (c :: (splitNN rest).headD []) :: (splitNN rest).tail := by
  cases rest with
  | nil => rfl
  | cons d r =>
    rw [splitNN, if_neg (by simpa using h)]

/-- Splitting a text of the form `block ++ "\n\n" ++ rest` on double newlines
detaches the block as its first piece, when the block contains no double
newline and does not end in a newline. -/
theorem splitNN_block (b rest : List Char) (hNN : noNN b = true)
    (hlast : b.getLast? ≠ some '\n') :
    splitNN (b ++ '\n' :: '\n' :: rest) = b :: splitNN rest := by
  induction b with
  | nil => exact splitNN_nlnl rest
  | cons a as ih =>
    cases as with
    | nil =>
      have ha : a ≠ '\n' := by simpa using hlast
      rw [List.cons_append, List.nil_append,
        splitNN_cons a ('\n' :: '\n' :: rest) (by simp [ha]),
        splitNN_nlnl]
      simp [splitNN_ne_nil]
    | cons a' as' =>
      have hrec : splitNN ((a' :: as') ++ '\n' :: '\n' :: rest)
          = (a' :: as') :: splitNN rest := by
        apply ih
        · exact noNN_cons_tail hNN
        · simpa using hlast
      have hhead : ¬(a = '\n' ∧ ((a' :: as') ++ '\n' :: '\n' :: rest).head? = some '\n') := by
        rintro ⟨rfl, hh⟩
        simp at hh
        subst hh
        rw [noNN] at hNN
        simp at hNN
      rw [List.cons_append, splitNN_cons a _ hhead, hrec]
      simp

/-- The trimmed non-empty line list of one block (the `lines` local of the
`forEach` body). -/
def trimmedLines (b : List Char) : List (List Char) :=
  ((splitLines b).map jsTrim).filter (fun l => l ≠ [])

/-- The name/designation/address triple a block contributes, matching the
fields of the contact built by `parseBlock`. -/
def blockTriple (b : List Char) : List Char × List Char × List Char :=
  (((trimmedLines b).get? 0).getD [],
   if 1 < (trimmedLines b).length then ((trimmedLines b).get? 1).getD [] else [],
   joinNL (((trimmedLines b).drop 2).filter (fun l => l ≠ [])))

/-- The triples contributed by a piece list, after discarding blank pieces. -/
def pieceTriples (ps : List (List Char)) : List (List Char × List Char × List Char) :=
  (ps.filter (fun b => jsTrim b ≠ [])).map blockTriple

theorem jsTrim_cons_nl (q : List Char) : jsTrim ('\n' :: q) = jsTrim q := by
  unfold jsTrim trimL
  rw [List.dropWhile_cons_of_pos isWs_nl]

theorem splitLines_cons_nl (q : List Char) : splitLines ('\n' :: q) = [] :: splitLines q := by
  rw [splitLines, if_pos rfl]

theorem trimmedLines_cons_nl (q : List Char) : trimmedLines ('\n' :: q) = trimmedLines q := by
  unfold trimmedLines
  rw [splitLines_cons_nl, List.map_cons, List.filter_cons]
  simp [jsTrim, trimL, trimR]

theorem blockTriple_cons_nl (q : List Char) : blockTriple ('\n' :: q) = blockTriple q := by
  unfold blockTriple
  rw [trimmedLines_cons_nl]

theorem pieceTriples_cons (b : List Char) (ps : List (List Char)) :
    pieceTriples (b :: ps)
      = if jsTrim b = [] then pieceTriples ps else blockTriple b :: pieceTriples ps := by
  unfold pieceTriples
  rw [List.filter_cons]
  by_cases h : jsTrim b = [] <;> simp [h]

theorem pieceTriples_cons_nl (q : List Char) (ps : List (List Char)) :
    pieceTriples (('\n' :: q) :: ps) = pieceTriples (q :: ps) := by
  rw [pieceTriples_cons, pieceTriples_cons, jsTrim_cons_nl, blockTriple_cons_nl]

theorem pieceTriples_nil_cons (ps : List (List Char)) :
    pieceTriples ([] :: ps) = pieceTriples ps := by
  rw [pieceTriples_cons, if_pos (show jsTrim [] = [] from rfl)]

theorem splitLines_ne_nil (l : List Char) : splitLines l ≠ [] := by
  match l with
  | [] => simp [splitLines]
  | c :: rest =>
    rw [splitLines]
    split_ifs <;> simp

/-- `split('\n')` and `join('\n')` are mutually inverse on the split side. -/
theorem joinNL_splitLines (l : List Char) : joinNL (splitLines l) = l := by
  induction l with
  | nil => rfl
  | cons c rest ih =>
    by_cases hc : c = '\n'
    · subst hc
      rw [splitLines_cons_nl]
      rcases hps : splitLines rest with _ | ⟨p, ps⟩
      · exact absurd hps (splitLines_ne_nil rest)
      · rw [hps] at ih
        rw [show joinNL ([] :: p :: ps) = [] ++ '\n' :: joinNL (p :: ps) from rfl, ih]
        rfl
    · rw [splitLines, if_neg hc]
      rcases hps : splitLines rest with _ | ⟨p, ps⟩
      · exact absurd hps (splitLines_ne_nil rest)
      · rw [hps] at ih
        cases ps with
        | nil => exact congrArg (fun z => c :: z) ih
        | cons q qs =>
          show joinNL ((c :: p) :: q :: qs) = c :: rest
          rw [show joinNL ((c :: p) :: q :: qs) = (c :: p) ++ '\n' :: joinNL (q :: qs) from rfl,
            ← ih]
          rfl

theorem mem_joinNL {c : Char} {ps : List (List Char)} (h : c ∈ joinNL ps) :
    (∃ p ∈ ps, c ∈ p) ∨ c = '\n' := by
  induction ps with
  | nil => cases h
  | cons s rest ih =>
    cases rest with
    | nil =>
      left
      exact ⟨s, List.mem_cons_self s [], h⟩
    | cons t ts =>
      rw [show joinNL (s :: t :: ts) = s ++ '\n' :: joinNL (t :: ts) from rfl] at h
      rcases List.mem_append.mp h with h1 | h2
      · exact Or.inl ⟨s, List.mem_cons_self s _, h1⟩
      · rcases List.mem_cons.mp h2 with rfl | h3
        · exact Or.inr rfl
        · rcases ih h3 with ⟨p, hp, hcp⟩ | hnl
          · exact Or.inl ⟨p, List.mem_cons_of_mem s hp, hcp⟩
          · exact Or.inr hnl

/-- A non-blank block has at least one non-empty trimmed line. -/
theorem trimmedLines_ne_nil_of {b : List Char} (h : jsTrim b ≠ []) :
    trimmedLines b ≠ [] := by
  obtain ⟨c, hc, hws⟩ := exists_nonWs_of_jsTrim_ne_nil h
  rw [← joinNL_splitLines b] at hc
  rcases mem_joinNL hc with ⟨p, hp, hcp⟩ | rfl
  · have hpne : jsTrim p ≠ [] := by
      intro hnil
      have := jsTrim_eq_nil_iff.mp hnil c hcp
      rw [this] at hws
      cases hws
    have : jsTrim p ∈ trimmedLines b := by
      unfold trimmedLines
      exact List.mem_filter.mpr ⟨List.mem_map_of_mem jsTrim hp, by simpa using hpne⟩
    exact List.ne_nil_of_mem this
  · rw [isWs_nl] at hws
    cases hws

theorem parse_enum_triples (now : Nat) (l : List (List Char)) :
    ∀ i : Nat, (∀ b ∈ l, jsTrim b ≠ []) →
    ((l.enumFrom i).filterMap (fun p => V2.parseBlock now p.1 p.2)).map contactTriple
      = l.map blockTriple := by
  induction l with
  | nil => intro i _; rfl
  | cons b bs ih =>
    intro i hl
    have hb : trimmedLines b ≠ [] := trimmedLines_ne_nil_of (hl b (List.mem_cons_self b bs))
    have hlen : ¬(((splitLines b).map jsTrim).filter (fun l => l ≠ [])).length = 0 := by
      simpa [trimmedLines, List.length_eq_zero] using hb
    have hsome : V2.parseBlock now i b = some
        { id := mkContactId now i,
          name := ((trimmedLines b).get? 0).getD [],
          designation := if 1 < (trimmedLines b).length
            then ((trimmedLines b).get? 1).getD [] else [],
          location := [],
          address := joinNL (((trimmedLines b).drop 2).filter (fun l => l ≠ [])),
          rawText := some b } := by
      unfold V2.parseBlock trimmedLines
      dsimp only
      rw [if_neg hlen]
    rw [List.enumFrom_cons, List.filterMap_cons, hsome]
    show contactTriple _ :: _ = blockTriple b :: _
    rw [ih (i + 1) (fun x hx => hl x (List.mem_cons_of_mem b hx))]
    rfl

/-- The name/designation/address triples of the parse are exactly the triples
of the non-blank double-newline pieces of the trimmed text. -/
theorem parse_triples (now : Nat) (t : List Char) :
    (V2.parseTextInput now t).map contactTriple = pieceTriples (splitNN (jsTrim t)) := by
  show ((List.enumFrom 0 ((splitNN (jsTrim t)).filter (fun b => jsTrim b ≠ []))).filterMap
      (fun p => V2.parseBlock now p.1 p.2)).map contactTriple = _
  unfold pieceTriples
  exact parse_enum_triples now _ 0 (fun b hb => by simpa using List.of_mem_filter hb)

/-- Discarding a leading newline run before a piece list whose first piece
does not start with a newline leaves the contributed triples unchanged: runs
of even length only add blank (discarded) pieces, an odd remainder prepends a
newline to the first piece, which the per-block trimming removes. -/
theorem pieceTriples_peel (m : Nat) : ∀ z : List Char, z.head? ≠ some '\n' →
    pieceTriples (splitNN (List.replicate m '\n' ++ z)) = pieceTriples (splitNN z) := by
  induction m using Nat.twoStepInduction with
  | zero => intro z _; rfl
  | one =>
    intro z hz
    rw [show List.replicate 1 '\n' ++ z = '\n' :: z by simp]
    rw [splitNN_cons '\n' z (by rintro ⟨_, hh⟩; exact hz hh)]
    rcases hq : splitNN z with _ | ⟨q, qs⟩
    · exact absurd hq (splitNN_ne_nil z)
    · exact pieceTriples_cons_nl q qs
  | more n ih _ =>
    intro z hz
    rw [show List.replicate (n + 2) '\n' ++ z
        = '\n' :: '\n' :: (List.replicate n '\n' ++ z) by
      rw [List.replicate_succ, List.replicate_succ, List.cons_append, List.cons_append]]
    rw [splitNN_nlnl, pieceTriples_nil_cons]
    exact ih z hz

/-- A well-formed contact block: non-blank, not beginning or ending with a
newline, with no two consecutive newlines inside. -/
def WFBlock (b : List Char) : Prop :=
  jsTrim b ≠ [] ∧ b.head? ≠ some '\n' ∧ b.getLast? ≠ some '\n' ∧ noNN b = true

instance (b : List Char) : Decidable (WFBlock b) := by
  unfold WFBlock
  infer_instance

/-- The text after the first block: for each pair `(n, b)` a run of `n`
newlines followed by the block `b`. -/
def sepBody (tail : List (Nat × List Char)) : List Char :=
  tail.foldr (fun p acc => List.replicate p.1 '\n' ++ p.2 ++ acc) []

theorem trimR_eq_self_append (x : List Char) :
    x = trimR x ++ (x.reverse.takeWhile isWs).reverse := by
  unfold trimR
  rw [← List.reverse_append, List.takeWhile_append_dropWhile, List.reverse_reverse]

theorem trimR_ne_nil_of_nonWs {x : List Char} (h : ∃ c ∈ x, isWs c = false) :
    trimR x ≠ [] := by
  intro hnil
  obtain ⟨c, hc, hws⟩ := h
  rw [trimR_eq_nil_iff.mp hnil c hc] at hws
  cases hws

theorem head?_trimR_of_ne_nil {x : List Char} (h : trimR x ≠ []) :
    (trimR x).head? = x.head? := by
  conv_rhs => rw [trimR_eq_self_append x]
  rw [List.head?_append]
  obtain ⟨a, as, ha⟩ := List.exists_cons_of_ne_nil h
  rw [ha]
  rfl

theorem head?_trimL_not_nl (l : List Char) : (trimL l).head? ≠ some '\n' := by
  have := List.head?_dropWhile_not isWs l
  intro hcon
  rw [show l.dropWhile isWs = trimL l from rfl] at this
  rw [hcon] at this
  exact absurd this (by simp [isWs_nl])

theorem getLast?_trimL_of_ne_nil {l : List Char} (h : trimL l ≠ []) :
    (trimL l).getLast? = l.getLast? := by
  conv_rhs => rw [← List.takeWhile_append_dropWhile (p := isWs) (l := l)]
  rw [List.getLast?_append]
  obtain ⟨a, as, ha⟩ := List.exists_cons_of_ne_nil h
  rw [show l.dropWhile isWs = trimL l from rfl, ha]
  cases as with
  | nil => rfl
  | cons b bs =>
    rw [List.getLast?_cons_cons]
    cases hg : (b :: bs).getLast? with
    | none => exact absurd hg (by simp)
    | some v => rfl

theorem noNN_trimL {l : List Char} (h : noNN l = true) : noNN (trimL l) = true := by
  have hsplit := List.takeWhile_append_dropWhile (p := isWs) (l := l)
  exact noNN_append_right (x := l.takeWhile isWs)
    (by rw [show l.dropWhile isWs = trimL l from rfl] at hsplit; rw [hsplit]; exact h)

/-- Left-trimming a well-formed-up-to-leading-whitespace block yields a
well-formed block. -/
theorem WFBlock_trimL {b : List Char} (h1 : jsTrim b ≠ [])
    (h3 : b.getLast? ≠ some '\n') (h4 : noNN b = true) : WFBlock (trimL b) := by
  refine ⟨?_, head?_trimL_not_nl b, ?_, noNN_trimL h4⟩
  · rw [jsTrim_trimL]; exact h1
  · rw [getLast?_trimL_of_ne_nil (trimL_ne_nil_of_jsTrim h1)]; exact h3

theorem sepBody_cons (q : Nat × List Char) (ts : List (Nat × List Char)) :
    sepBody (q :: ts) = List.replicate q.1 '\n' ++ (q.2 ++ sepBody ts) := by
  show (List.replicate q.1 '\n' ++ q.2) ++ sepBody ts = _
  rw [List.append_assoc]

/-- One induction step of the main argument: a leading well-formed block
followed by a separator run of `m ≥ 2` newlines and a remainder `Z` (non-blank
and not starting with a newline) contributes exactly its own triple followed
by the triples of the trimmed remainder. -/
theorem step_detach (b0 : List Char) (h0 : WFBlock b0) (m : Nat) (hm : 2 ≤ m)
    (Z : List Char) (hZws : ∃ c ∈ Z, isWs c = false) (hZhead : Z.head? ≠ some '\n') :
    pieceTriples (splitNN (trimR (b0 ++ (List.replicate m '\n' ++ Z))))
      = blockTriple b0 :: pieceTriples (splitNN (trimR Z)) := by
  obtain ⟨h0ne, h0head, h0last, h0nn⟩ := h0
  rw [show b0 ++ (List.replicate m '\n' ++ Z) = (b0 ++ List.replicate m '\n') ++ Z from
      (List.append_assoc _ _ _).symm,
    trimR_append_of_nonWs (b0 ++ List.replicate m '\n') hZws]
  have hWne : trimR Z ≠ [] := trimR_ne_nil_of_nonWs hZws
  have hWhead : (trimR Z).head? ≠ some '\n' := by
    rw [head?_trimR_of_ne_nil hWne]; exact hZhead
  obtain ⟨k, rfl⟩ := Nat.exists_eq_add_of_le hm
  rw [show (b0 ++ List.replicate (2 + k) '\n') ++ trimR Z
      = b0 ++ '\n' :: '\n' :: (List.replicate k '\n' ++ trimR Z) by
    rw [List.replicate_add]
    simp [List.append_assoc]]
  rw [splitNN_block b0 _ h0nn h0last, pieceTriples_cons, if_neg h0ne,
    pieceTriples_peel k (trimR Z) hWhead]

theorem head?_append_of_ne_nil {x : List Char} (y : List Char) (h : x ≠ []) :
    (x ++ y).head? = x.head? := by
  obtain ⟨a, as, rfl⟩ := List.exists_cons_of_ne_nil h
  rfl

theorem ne_nil_of_jsTrim_ne_nil {b : List Char} (h : jsTrim b ≠ []) : b ≠ [] := by
  rintro rfl
  exact h rfl

/-- Core of the C7 argument: over a trailing-trimmed body, widening each
separator run from 2 to any `n ≥ 2` newlines leaves the contributed triples
unchanged. -/
theorem mainAux (tail : List (Nat × List Char)) : ∀ b0 : List Char, WFBlock b0 →
    (∀ p ∈ tail, 2 ≤ p.1 ∧ WFBlock p.2) →
    pieceTriples (splitNN (trimR (b0 ++ sepBody tail)))
      = pieceTriples (splitNN (trimR (b0 ++ sepBody (tail.map (fun p => (2, p.2)))))) := by
  induction tail with
  | nil => intro b0 _ _; rfl
  | cons p rest ih =>
    obtain ⟨n, b1⟩ := p
    intro b0 h0 ht
    obtain ⟨hn, hb1⟩ := ht (n, b1) (List.mem_cons_self _ _)
    have htr : ∀ q ∈ rest, 2 ≤ q.1 ∧ WFBlock q.2 :=
      fun q hq => ht q (List.mem_cons_of_mem _ hq)
    have hb1ne : b1 ≠ [] := ne_nil_of_jsTrim_ne_nil hb1.1
    have hZws : ∀ S : List Char, ∃ c ∈ b1 ++ S, isWs c = false := by
      intro S
      obtain ⟨c, hc, hch⟩ := exists_nonWs_of_jsTrim_ne_nil hb1.1
      exact ⟨c, List.mem_append_left _ hc, hch⟩
    have hZhead : ∀ S : List Char, (b1 ++ S).head? ≠ some '\n' := by
      intro S
      rw [head?_append_of_ne_nil S hb1ne]
      exact hb1.2.1
    rw [List.map_cons, sepBody_cons, sepBody_cons,
      step_detach b0 h0 n hn _ (hZws _) (hZhead _),
      step_detach b0 h0 2 (le_refl 2) _ (hZws _) (hZhead _)]
    exact congrArg (blockTriple b0 :: ·) (ih b1 hb1 htr)

/-- C7: the freeform parse is invariant under blank-run padding.  For any
well-formed blocks `b0, b1, …, bk` (non-blank, no interior double newline, no
newline at either end): padding the canonical single-blank-line-separated text
with `lead` leading newlines and `trail` trailing newlines and widening each
separator to any `nᵢ ≥ 2` newlines (that is, one or more blank lines between
blocks) yields the same ordered name/designation/address sequence — in
particular the same contact count — as the canonical text itself. -/
theorem C7_blank_run_invariance (now lead trail : Nat) (b0 : List Char)
    (tail : List (Nat × List Char)) (h0 : WFBlock b0)
    (ht : ∀ p ∈ tail, 2 ≤ p.1 ∧ WFBlock p.2) :
    (V2.parseTextInput now
        (List.replicate lead '\n' ++ (b0 ++ sepBody tail)
          ++ List.replicate trail '\n')).map contactTriple
      = (V2.parseTextInput now
          (b0 ++ sepBody (tail.map (fun p => (2, p.2))))).map contactTriple := by
  rw [parse_triples, parse_triples]
  have h0ws : ∃ c ∈ b0, isWs c = false := exists_nonWs_of_jsTrim_ne_nil h0.1
  have hMws : ∃ c ∈ b0 ++ sepBody tail, isWs c = false := by
    obtain ⟨c, hc, hch⟩ := h0ws
    exact ⟨c, List.mem_append_left _ hc, hch⟩
  rw [jsTrim_pad lead trail hMws]
  have hTL : ∀ S : List Char, jsTrim (b0 ++ S) = trimR (trimL b0 ++ S) := by
    intro S
    unfold jsTrim
    rw [trimL_append_of_nonWs S h0ws]
  rw [hTL, hTL]
  exact mainAux tail (trimL b0) (WFBlock_trimL h0.1 h0.2.2.1 h0.2.2.2) ht

/-- Witness for `C7_blank_run_invariance`: one leading blank line, a run of
three blank lines between two blocks and two trailing newlines parse to the
same triples as the collapsed text `"Alice\nManager\n\nBob"`. -/
theorem C7_blank_run_invariance_witness :
    (WFBlock "Alice\nManager".data ∧
      ∀ p ∈ [((4 : Nat), "Bob".data)], 2 ≤ p.1 ∧ WFBlock p.2) ∧
    (V2.parseTextInput 0
        (List.replicate 1 '\n' ++ ("Alice\nManager".data ++ sepBody [(4, "Bob".data)])
          ++ List.replicate 2 '\n')).map contactTriple
      = (V2.parseTextInput 0
          ("Alice\nManager".data
            ++ sepBody ([((4 : Nat), "Bob".data)].map (fun p => (2, p.2))))).map
          contactTriple :=
  ⟨⟨by decide, by decide⟩,
   C7_blank_run_invariance 0 1 2 "Alice\nManager".data [(4, "Bob".data)]
     (by decide) (by decide)⟩

example :
    (V2.parseTextInput 0 "\nAlice\nManager\n\n\n\nBob\n\n".data).map contactTriple
      = (V2.parseTextInput 0 "Alice\nManager\n\nBob".data).map contactTriple := by decide

example :
    (V2.parseTextInput 0 "A\n\n\nB".data).map contactTriple
      = (V2.parseTextInput 0 "A\n\nB".data).map contactTriple := by decide
